import Mathlib

/-!
Verification of the INDEC consumer-price-index extraction script
(`INDEC_consumer_price_index.py`).

The spreadsheet-reading, HTTP and HTML libraries are external black boxes:
a parsed sheet is modelled as a 2-D grid of typed cell values, and a parsed
HTML page as its list of anchors (href plus visible text).  The grid is
stored as the list of its columns, mirroring the `sheet_data.items()`
iteration order of the source (column-major scan); `getRow` recovers the
row seen by `sheet_data.iloc[row_idx]`.

Numbers are modelled as rationals.  A cell holds a number, a string, a
boolean (Python `bool` passes the `isinstance(value, (int, float))` test),
or nothing (`NaN` / dates / anything else: never a string, never numeric
and `> 0`).
-/

namespace CPI

/-- A spreadsheet cell as produced by the (black-box) sheet reader. -/
inductive Cell where
  | num (q : ℚ)
  | str (s : String)
  | boolean (b : Bool)
  | empty
deriving DecidableEq

/-- A sheet's grid, stored column-major: the list of its columns. -/
abbrev Grid := List (List Cell)

/-- The row `sheet_data.iloc[r]`: entry `r` of every column, in column order.
(The pandas frame is rectangular; a column too short simply has no value
there, which behaves like `NaN`, i.e. `Cell.empty`.) -/
def getRow (g : Grid) (r : ℕ) : List Cell :=
  g.map (fun colData => colData.getD r Cell.empty)

/-- Line 159: `isinstance(value, (int, float)) and value > 0`.  Python's
`bool` is a subclass of `int`, so `True` (= 1) qualifies and `False` (= 0)
does not. -/
def isPriceCandidate : Cell → Bool
  | Cell.num q => decide (0 < q)
  | Cell.boolean b => b
  | _ => false

/-- The numeric value a qualifying cell contributes as a price
(`True` counts as 1). -/
def priceValue : Cell → ℚ
  | Cell.num q => q
  | Cell.boolean b => if b then 1 else 0
  | _ => 0

/-- Line 222: `round(price, 2)`, rounding to two decimal places (modelled
as exact rational rounding, ties upward; the claims never depend on the
tie-breaking of Python's float-based rounding).  The value is
`⌊q·100 + 1/2⌋ / 100`, computed on the numerator and denominator so that
it evaluates by kernel reduction: `⌊q·100 + 1/2⌋ = (200·num + den) fdiv
(2·den)`. -/
def round2 (q : ℚ) : ℚ :=
  mkRat (Int.fdiv (200 * q.num + Int.ofNat q.den) (2 * Int.ofNat q.den)) 100

/-- Lines 147-151: the `month_mapping` dictionary. -/
def month_mapping : List (String × String) :=
  [("Enero", "01"), ("Febrero", "02"), ("Marzo", "03"), ("Abril", "04"),
   ("Mayo", "05"), ("Junio", "06"), ("Julio", "07"), ("Agosto", "08"),
   ("Septiembre", "09"), ("Octubre", "10"), ("Noviembre", "11"), ("Diciembre", "12")]

/-- Lookup `cell_value in month_mapping` followed by `month_mapping[cell_value]`. -/
def monthLookup (s : String) : Option String := month_mapping.lookup s

/-- Test `'0' ≤ c ≤ '9'`, i.e. `\d` on ASCII digits. -/
def charIsDigit (c : Char) : Bool := ('0' ≤ c) && (c ≤ '9')

/-- Lines 168-169: `re.match(r"(?i)año \d{4}", s)` followed by
`re.search(r"\d{4}", s).group()`.  `re.match` anchors at the start, so the
string must begin with `año ` (case-insensitively; `ñ` and `Ñ` fold onto
each other) followed by four digits; since the first four characters are
not digits, the first 4-digit run `re.search` extracts is exactly those
four digits. -/
def yearToken (s : String) : Option String :=
  match s.toList with
  | a :: b :: c :: d :: e1 :: e2 :: e3 :: e4 :: _ =>
    if ((a == 'a') || (a == 'A')) && ((b == 'ñ') || (b == 'Ñ'))
        && ((c == 'o') || (c == 'O')) && (d == ' ')
        && charIsDigit e1 && charIsDigit e2 && charIsDigit e3 && charIsDigit e4
    then some (String.mk [e1, e2, e3, e4])
    else none
  | _ => none

/-- Lines 162-173: the per-candidate scan of the candidate's own column for
month and year tokens.  Arguments: remaining cells, `date_found`,
`year_found`, `last_year_found`.  After every string cell the loop checks
`if date_found and year_found: break`; a year assignment also updates
`last_year_found`.  Returns the final `(date_found, year_found,
last_year_found)`. -/
def scanColumn : List Cell → Option String → Option String → Option String →
    Option String × Option String × Option String
  | [], dateFound, yearFound, lastYear => (dateFound, yearFound, lastYear)
  | c :: rest, dateFound, yearFound, lastYear =>
    match c with
    | Cell.str s =>
      match monthLookup s with
      | some m =>
        if yearFound.isSome then (some m, yearFound, lastYear)
        else scanColumn rest (some m) yearFound lastYear
      | none =>
        match yearToken s with
        | some y =>
          if dateFound.isSome then (dateFound, some y, some y)
          else scanColumn rest dateFound (some y) (some y)
        | none =>
          if dateFound.isSome && yearFound.isSome then (dateFound, yearFound, lastYear)
          else scanColumn rest dateFound yearFound lastYear
    | _ => scanColumn rest dateFound yearFound lastYear

/-- Line 180: `f"{year_found}-{date_found}-01"`. -/
def mkDate (y m : String) : String := y ++ "-" ++ m ++ "-01"

/-- Line 189: `isinstance(check_value, str) and check_value in valid_regions`. -/
def valid_regions : List String :=
  ["GBA", "Pampeana", "Noreste", "Noroeste", "Cuyo", "Patagonia"]

/-- Whether a cell passes the region test of line 189. -/
def cellMatchesRegion : Cell → Bool
  | Cell.str s => valid_regions.contains s
  | _ => false

/-- The `product_found = next str cell` scans (lines 193-196 and 199-202):
first string-valued cell of a cell list, if any. -/
def firstText : List Cell → Option String
  | [] => none
  | Cell.str s :: _ => some s
  | _ :: rest => firstText rest

/-- Lines 188-204: the row loop.  At the first cell that is a string equal
to a region name it takes the first string cell after it as the product,
then rescans from two cells past the region *reusing the `product_found`
variable* (so when that rescan finds nothing the unit silently keeps the
product's value), appends, and breaks.  Returns
`(region, product_found after first scan, product_found after second scan)`
or `none` when no cell matches a region. -/
def regionRowScan : List Cell → Option (String × Option String × Option String)
  | [] => none
  | c :: rest =>
    match c with
    | Cell.str s =>
      if valid_regions.contains s then
        some (s, firstText rest,
          match firstText (rest.drop 1) with
          | some u => some u
          | none => firstText rest)
      else regionRowScan rest
    | _ => regionRowScan rest

/-- The region/product/unit triple appended for one candidate's row. -/
structure RowFields where
  region : Option String
  product : Option String
  unit : Option String
deriving DecidableEq

/-- Lines 184-217 restricted to the row inference: the region branch
(lines 188-204) else the fallback branch (lines 206-214).  In the fallback
the code computes `unit_found` from the third cell but then appends
`product_found` to `unit_data` (line 214), so the fallback unit equals the
product. -/
def rowFields (row : List Cell) : RowFields :=
  match regionRowScan row with
  | some (s, product, unitV) => ⟨some s, product, unitV⟩
  | none =>
    let region_found := match row.head? with
      | some (Cell.str s) => some s
      | _ => none
    let product_found := match row.get? 1 with
      | some (Cell.str s) => some s
      | _ => none
    ⟨region_found, product_found, product_found⟩

/-- The five accumulator lists of lines 137-141 plus the running
`last_year_found` of line 154. -/
structure ScanState where
  price_data : List ℚ
  region_data : List (Option String)
  product_data : List (Option String)
  unit_data : List (Option String)
  date_data : List (Option String)
  last_year_found : Option String
deriving DecidableEq

/-- The state as freshly initialised inside each call (lines 137-154). -/
def initState : ScanState := ⟨[], [], [], [], [], none⟩

/-- Lines 160-217: everything done for one price candidate: append the
price, scan the candidate's column for date tokens (substituting
`last_year_found` when a month but no year was found), infer
region/product/unit from the candidate's row, and append to all five
lists. -/
def processCandidate (st : ScanState) (colData row : List Cell) (v : ℚ) : ScanState :=
  let res := scanColumn colData none none st.last_year_found
  let dateFound := res.1
  let yearFound0 := res.2.1
  let lastYear := res.2.2
  let yearFound := if dateFound.isSome && !yearFound0.isSome then lastYear else yearFound0
  let fullDate := match dateFound, yearFound with
    | some m, some y => some (mkDate y m)
    | _, _ => none
  let rf := rowFields row
  { price_data := st.price_data ++ [v]
    region_data := st.region_data ++ [rf.region]
    product_data := st.product_data ++ [rf.product]
    unit_data := st.unit_data ++ [rf.unit]
    date_data := st.date_data ++ [fullDate]
    last_year_found := lastYear }

/-- Lines 157-217: the inner loop over the rows of one column.  `colData`
is the whole column (rescanned for dates at every candidate), `cells` the
remaining suffix, `r` the row index of its head. -/
def processColumn (g : Grid) (colData : List Cell) :
    List Cell → ℕ → ScanState → ScanState
  | [], _, st => st
  | v :: rest, r, st =>
    processColumn g colData rest (r + 1)
      (if isPriceCandidate v then processCandidate st colData (getRow g r) (priceValue v) else st)

/-- Lines 137-217: the full column-major scan, starting from the freshly
initialised state. -/
def scanGrid (g : Grid) : ScanState :=
  g.foldl (fun st colData => processColumn g colData colData 0 st) initState

/-- One output row of the resulting table, with the fixed column set
{Date, Region, Product, Unit, Price}. -/
structure Observation where
  date : Option String
  region : Option String
  product : Option String
  unit : Option String
  price : ℚ
deriving DecidableEq

/-- Rows of the final DataFrame: the five equal-length column lists zipped
together (lines 220-226; prices rounded to 2 decimals at line 222). -/
def zip5 : List (Option String) → List (Option String) → List (Option String) →
    List (Option String) → List ℚ → List Observation
  | d :: ds, r :: rs, p :: ps, u :: us, q :: qs =>
    ⟨d, r, p, u, q⟩ :: zip5 ds rs ps us qs
  | _, _, _, _, _ => []

/-- The Observation sequence the extractor produces for one grid. -/
def extractObservations (g : Grid) : List Observation :=
  let st := scanGrid g
  zip5 st.date_data st.region_data st.product_data st.unit_data
    (st.price_data.map round2)

/-- Lowercase image of each character Python's `str.lower()` changes, for
the alphabet this system meets (ASCII letters plus the accented Spanish
letters); all other characters are left unchanged. -/
def lowerPairs : List (Char × Char) :=
  [('A', 'a'), ('B', 'b'), ('C', 'c'), ('D', 'd'), ('E', 'e'), ('F', 'f'),
   ('G', 'g'), ('H', 'h'), ('I', 'i'), ('J', 'j'), ('K', 'k'), ('L', 'l'),
   ('M', 'm'), ('N', 'n'), ('O', 'o'), ('P', 'p'), ('Q', 'q'), ('R', 'r'),
   ('S', 's'), ('T', 't'), ('U', 'u'), ('V', 'v'), ('W', 'w'), ('X', 'x'),
   ('Y', 'y'), ('Z', 'z'),
   ('Á', 'á'), ('É', 'é'), ('Í', 'í'), ('Ó', 'ó'), ('Ú', 'ú'), ('Ü', 'ü'),
   ('Ñ', 'ñ')]

/-- One character of Python's `str.lower()`. -/
def lowerChar (c : Char) : Char := (lowerPairs.lookup c).getD c

/-- Python `s.lower()`. -/
def lowerStr (s : String) : String := String.mk (s.toList.map lowerChar)

/-- Lines 117-126: enumerate sheet names, return the first case-insensitive
match (`sheet.lower() == sheet_name.lower()`), else the first sheet
(`sheets[0]`; `none` models the index error an empty workbook would raise,
which a validated file never has). -/
def find_sheet_case_insensitive (sheets : List String) (sheet_name : String) :
    Option String :=
  match sheets.find? (fun s => lowerStr s == lowerStr sheet_name) with
  | some s => some s
  | none => sheets.head?

/-- A workbook: its named sheets in file order. -/
abbrev Workbook := List (String × Grid)

/-- The workbook's sheet names in file order. -/
def sheetNames (wb : Workbook) : List String := wb.map Prod.fst

/-- Lines 129-228: pick the sheet case-insensitively, then scan its grid.
The `df` argument of the source is the empty frame built by
`create_empty_dataframe`, so the function's result is exactly the
Observation list. -/
def populate_price_column_with_numbers (wb : Workbook) (sheet_name : String) :
    List Observation :=
  match find_sheet_case_insensitive (sheetNames wb) sheet_name with
  | none => []
  | some actual =>
    match wb.lookup actual with
    | some g => extractObservations g
    | none => []

/-! ### Link resolver (`find_and_return_xls_link`, lines 7-55)

The HTTP fetch and HTML parse are black boxes; the function is modelled on
the anchor list of the already-parsed page. -/

/-- An HTML anchor with an `href` attribute: its target and visible text. -/
structure Anchor where
  href : String
  text : String
deriving DecidableEq

/-- Whether the first list is a prefix of the second, character by character. -/
def listStartsWith : List Char → List Char → Bool
  | [], _ => true
  | _ :: _, [] => false
  | a :: as, b :: bs => (a == b) && listStartsWith as bs

/-- Python `s.startswith(pre)`. -/
def strStartsWith (s pre : String) : Bool := listStartsWith pre.toList s.toList

/-- Python `s.endswith(suffixStr)`. -/
def strEndsWith (s suffixStr : String) : Bool :=
  listStartsWith suffixStr.toList.reverse s.toList.reverse

/-- Helper for Python's substring test: needle occurs at some position. -/
def containsSubAux (needle : List Char) : List Char → Bool
  | [] => needle.isEmpty
  | c :: rest => listStartsWith needle (c :: rest) || containsSubAux needle rest

/-- Python `needle in hay` on strings: contiguous-substring test (the empty
needle is contained in everything). -/
def strContains (hay needle : String) : Bool := containsSubAux needle.toList hay.toList

/-- Expression `xls_links[-1]["href"]`: the last candidate's href. -/
def lastHrefOf : Anchor → List Anchor → String
  | a, [] => a.href
  | _, b :: rest => lastHrefOf b rest

/-- Python `s.split(sep)` for a one-character separator: the chunks between
occurrences of `sep` (always at least one chunk, empty chunks kept). -/
def splitOnChar (sep : Char) : List Char → List (List Char)
  | [] => [[]]
  | c :: rest =>
    if c == sep then [] :: splitOnChar sep rest
    else
      match splitOnChar sep rest with
      | h :: t => (c :: h) :: t
      | [] => [[c]]

/-- Python `"/".join(parts)`. -/
def joinSlash : List String → String
  | [] => ""
  | [x] => x
  | x :: xs => x ++ "/" ++ joinSlash xs

/-- Lines 48-50: `"/".join(page_url.split("/")[:3])`. -/
def base_url (page_url : String) : String :=
  joinSlash (((splitOnChar '/' page_url.toList).map String.mk).take 3)

/-- Lines 47-50: prepend scheme and host when the chosen href is not
already absolute (`result.startswith("http")`). -/
def absolutize (page_url result : String) : String :=
  if strStartsWith result ("http") then result else base_url page_url ++ result

/-- Lines 29-52: filter the anchors down to `.xls` hrefs; if none, return
`None`.  `if reference_text:` is a truthiness test, so `None` *and the
empty string* both take the "last candidate" branch; otherwise return the
first candidate whose visible text contains the reference text
case-insensitively, falling back to the last candidate.  The chosen href
is made absolute before being returned. -/
def find_and_return_xls_link (page_url : String) (anchors : List Anchor)
    (reference_text : Option String) : Option String :=
  match anchors.filter (fun a => strEndsWith a.href (".xls")) with
  | [] => none
  | a :: rest =>
    match reference_text with
    | some ref =>
      if ref = "" then some (absolutize page_url (lastHrefOf a rest))
      else
        match (a :: rest).find? (fun l => strContains (lowerStr l.text) (lowerStr ref)) with
        | some l => some (absolutize page_url l.href)
        | none => some (absolutize page_url (lastHrefOf a rest))
    | none => some (absolutize page_url (lastHrefOf a rest))

/-! ### Reference decomposition of the scan

The scan is re-expressed over three per-candidate lists read directly off
the grid: the candidate cells, their rows and their columns, all in
column-major scan order. -/

/-- All price candidates of the grid in scan order (outer loop over
columns, inner loop over rows). -/
def candidateCells (g : Grid) : List Cell :=
  g.flatMap (fun colData => colData.filter isPriceCandidate)

/-- The column each candidate sits in, in scan order (one copy per
candidate). -/
def candidateColumns (g : Grid) : List (List Cell) :=
  g.flatMap (fun colData => (colData.filter isPriceCandidate).map (fun _ => colData))

/-- The rows of the candidates of one column suffix, starting at row
index `r`. -/
def colCandRows (g : Grid) : List Cell → ℕ → List (List Cell)
  | [], _ => []
  | v :: rest, r =>
    (if isPriceCandidate v then [getRow g r] else []) ++ colCandRows g rest (r + 1)

/-- The row each candidate sits in, in scan order. -/
def candidateRows (g : Grid) : List (List Cell) :=
  g.flatMap (fun colData => colCandRows g colData 0)

/-- The `date_found` a scan of the column yields when nothing was found
yet. -/
def monthRes (colData : List Cell) : Option String :=
  (scanColumn colData none none none).1

/-- The `year_found` a scan of the column yields when nothing was found
yet (also the last year token the scan observes, if any). -/
def yearRes (colData : List Cell) : Option String :=
  (scanColumn colData none none none).2.1

/-- How one candidate's column scan updates `last_year_found`: the last
year token observed in the column if there is one, the old value
otherwise. -/
def yrUpdate (colData : List Cell) (ly : Option String) : Option String :=
  match yearRes colData with
  | some z => some z
  | none => ly

/-- The date emitted for a candidate whose column is `colData` when
`last_year_found` is `ly` on entry: requires a month token, uses the
column's own year token if present, else the running last year. -/
def dateOf (ly : Option String) (colData : List Cell) : Option String :=
  match monthRes colData with
  | none => none
  | some m =>
    match yrUpdate colData ly with
    | some y => some (mkDate y m)
    | none => none

/-- The dates emitted for a scan-ordered list of candidate columns,
threading `last_year_found` through. -/
def threadDates : Option String → List (List Cell) → List (Option String)
  | _, [] => []
  | ly, c :: cs => dateOf ly c :: threadDates (yrUpdate c ly) cs

/-- The `last_year_found` value after scanning a list of candidate columns. -/
def lastYearAfter (ly : Option String) (cs : List (List Cell)) : Option String :=
  cs.foldl (fun a c => yrUpdate c a) ly

/-! ### Lemmas about the column scan -/

theorem scanColumn_isSome_ly (cells : List Cell) : ∀ (d y : Option String) (z : String),
    ((scanColumn cells d y (some z)).2.2).isSome = true := by
  induction cells with
  | nil => intro d y z; simp [scanColumn]
  | cons c rest ih =>
    intro d y z
    cases c with
    | str s =>
      simp only [scanColumn]
      cases hm : monthLookup s with
      | some m =>
        cases y with
        | some yv => simp
        | none => simpa using ih (some m) none z
      | none =>
        cases hy : yearToken s with
        | some yv =>
          cases d with
          | some dv => simp
          | none => simpa using ih none (some yv) yv
        | none =>
          by_cases hb : d.isSome && y.isSome
          · simp [hb]
          · simpa [hb] using ih d y z
    | num q => simpa [scanColumn] using ih d y z
    | boolean b => simpa [scanColumn] using ih d y z
    | empty => simpa [scanColumn] using ih d y z

theorem scanColumn_lastYear (cells : List Cell) : ∀ (d y ly : Option String),
    (scanColumn cells d y ly).1 = (scanColumn cells d y none).1 ∧
    (scanColumn cells d y ly).2.1 = (scanColumn cells d y none).2.1 ∧
    (scanColumn cells d y ly).2.2 =
      (match (scanColumn cells d y none).2.2 with
       | some z => some z
       | none => ly) := by
  induction cells with
  | nil => intro d y ly; simp [scanColumn]
  | cons c rest ih =>
    intro d y ly
    cases c with
    | str s =>
      simp only [scanColumn]
      cases hm : monthLookup s with
      | some m =>
        cases y with
        | some yv => simp
        | none => simpa using ih (some m) none ly
      | none =>
        cases hy : yearToken s with
        | some yv =>
          cases d with
          | some dv => simp
          | none =>
            simp only [Option.isSome_none, Bool.false_eq_true, if_false]
            have hs := scanColumn_isSome_ly rest none (some yv) yv
            obtain ⟨w, hw⟩ := Option.isSome_iff_exists.mp hs
            simp [hw]
        | none =>
          by_cases hb : d.isSome && y.isSome
          · simp [hb]
          · simpa [hb] using ih d y ly
    | num q => simpa [scanColumn] using ih d y ly
    | boolean b => simpa [scanColumn] using ih d y ly
    | empty => simpa [scanColumn] using ih d y ly

theorem scanColumn_y_eq_ly (cells : List Cell) : ∀ (d v : Option String),
    (scanColumn cells d v v).2.1 = (scanColumn cells d v v).2.2 := by
  induction cells with
  | nil => intro d v; simp [scanColumn]
  | cons c rest ih =>
    intro d v
    cases c with
    | str s =>
      simp only [scanColumn]
      cases hm : monthLookup s with
      | some m =>
        cases v with
        | some yv => simp
        | none => simpa using ih (some m) none
      | none =>
        cases hy : yearToken s with
        | some yv =>
          cases d with
          | some dv => simp
          | none => simpa using ih none (some yv)
        | none =>
          by_cases hb : d.isSome && v.isSome
          · simp [hb]
          · simpa [hb] using ih d v
    | num q => simpa [scanColumn] using ih d v
    | boolean b => simpa [scanColumn] using ih d v
    | empty => simpa [scanColumn] using ih d v

/-- A column scan that starts with nothing found computes `monthRes`,
`yearRes`, and updates `last_year_found` by `yrUpdate`. -/
theorem scanColumn_none_run (colData : List Cell) (ly : Option String) :
    scanColumn colData none none ly =
      (monthRes colData, yearRes colData, yrUpdate colData ly) := by
  have h := scanColumn_lastYear colData none none ly
  have hye : yearRes colData = (scanColumn colData none none none).2.2 :=
    scanColumn_y_eq_ly colData none none
  obtain ⟨h1, h2, h3⟩ := h
  have : (scanColumn colData none none ly) =
      ((scanColumn colData none none ly).1,
       (scanColumn colData none none ly).2.1,
       (scanColumn colData none none ly).2.2) := rfl
  rw [this, h1, h2, h3]
  rw [monthRes, yearRes, yrUpdate, hye]

/-! ### Characterizing the per-candidate step and the loops -/

/-- What `processCandidate` does, expressed through `rowFields`, `dateOf`
and `yrUpdate`: one element is appended to each of the five lists and the
running year is updated from the candidate's column. -/
theorem processCandidate_eq (st : ScanState) (colData row : List Cell) (v : ℚ) :
    processCandidate st colData row v =
      { price_data := st.price_data ++ [v]
        region_data := st.region_data ++ [(rowFields row).region]
        product_data := st.product_data ++ [(rowFields row).product]
        unit_data := st.unit_data ++ [(rowFields row).unit]
        date_data := st.date_data ++ [dateOf st.last_year_found colData]
        last_year_found := yrUpdate colData st.last_year_found } := by
  rw [processCandidate, scanColumn_none_run]
  rcases hm : monthRes colData with _ | m
  · rcases hy : yearRes colData with _ | y
    · simp [dateOf, yrUpdate, hm, hy]
    · simp [dateOf, yrUpdate, hm, hy]
  · rcases hy : yearRes colData with _ | y
    · simp only [dateOf, yrUpdate, hm, hy, Option.isSome_some, Option.isSome_none,
        Bool.not_false, Bool.and_true]
      rcases st.last_year_found with _ | ly <;> simp
    · simp [dateOf, yrUpdate, hm, hy]

/-- What the inner (row) loop over one column does to the state. -/
theorem processColumn_spec (g : Grid) (colData : List Cell) :
    ∀ (cells : List Cell) (r : ℕ) (st : ScanState),
      processColumn g colData cells r st =
        { price_data := st.price_data ++ (cells.filter isPriceCandidate).map priceValue
          region_data := st.region_data ++
            (colCandRows g cells r).map (fun row => (rowFields row).region)
          product_data := st.product_data ++
            (colCandRows g cells r).map (fun row => (rowFields row).product)
          unit_data := st.unit_data ++
            (colCandRows g cells r).map (fun row => (rowFields row).unit)
          date_data := st.date_data ++ threadDates st.last_year_found
            ((cells.filter isPriceCandidate).map (fun _ => colData))
          last_year_found := lastYearAfter st.last_year_found
            ((cells.filter isPriceCandidate).map (fun _ => colData)) } := by
  intro cells
  induction cells with
  | nil => intro r st; simp [processColumn, colCandRows, threadDates, lastYearAfter]
  | cons v rest ih =>
    intro r st
    rw [processColumn]
    by_cases hv : isPriceCandidate v
    · rw [if_pos hv, ih, processCandidate_eq]
      simp [colCandRows, hv, List.filter_cons, threadDates, lastYearAfter]
    · rw [if_neg hv, ih]
      simp [colCandRows, hv, List.filter_cons]

theorem threadDates_append (l1 : List (List Cell)) : ∀ (ly : Option String) (l2 : List (List Cell)),
    threadDates ly (l1 ++ l2) = threadDates ly l1 ++ threadDates (lastYearAfter ly l1) l2 := by
  induction l1 with
  | nil => intro ly l2; simp [threadDates, lastYearAfter]
  | cons c cs ih =>
    intro ly l2
    simp only [List.cons_append, threadDates]
    have h2 : lastYearAfter ly (c :: cs) = lastYearAfter (yrUpdate c ly) cs := rfl
    rw [h2]
    exact congrArg (List.cons (dateOf ly c)) (ih (yrUpdate c ly) l2)

theorem threadDates_length (cs : List (List Cell)) : ∀ (ly : Option String),
    (threadDates ly cs).length = cs.length := by
  induction cs with
  | nil => intro ly; simp [threadDates]
  | cons c rest ih => intro ly; simp [threadDates, ih]

/-- What the whole column-major scan produces: each of the five lists is
read off the candidate cells / rows / columns of the grid. -/
theorem scanGrid_spec (g : Grid) :
    scanGrid g =
      { price_data := (candidateCells g).map priceValue
        region_data := (candidateRows g).map (fun row => (rowFields row).region)
        product_data := (candidateRows g).map (fun row => (rowFields row).product)
        unit_data := (candidateRows g).map (fun row => (rowFields row).unit)
        date_data := threadDates none (candidateColumns g)
        last_year_found := lastYearAfter none (candidateColumns g) } := by
  have main : ∀ (cols : List (List Cell)) (st : ScanState),
      List.foldl (fun st colData => processColumn g colData colData 0 st) st cols =
        { price_data := st.price_data ++
            (cols.flatMap (fun c => c.filter isPriceCandidate)).map priceValue
          region_data := st.region_data ++
            (cols.flatMap (fun c => colCandRows g c 0)).map (fun row => (rowFields row).region)
          product_data := st.product_data ++
            (cols.flatMap (fun c => colCandRows g c 0)).map (fun row => (rowFields row).product)
          unit_data := st.unit_data ++
            (cols.flatMap (fun c => colCandRows g c 0)).map (fun row => (rowFields row).unit)
          date_data := st.date_data ++ threadDates st.last_year_found
            (cols.flatMap (fun c => (c.filter isPriceCandidate).map (fun _ => c)))
          last_year_found := lastYearAfter st.last_year_found
            (cols.flatMap (fun c => (c.filter isPriceCandidate).map (fun _ => c))) } := by
    intro cols
    induction cols with
    | nil => intro st; simp [threadDates, lastYearAfter]
    | cons c cs ih =>
      intro st
      rw [List.foldl_cons, processColumn_spec, ih]
      simp only [List.flatMap_cons, List.map_append, List.append_assoc, threadDates_append,
        lastYearAfter, List.foldl_append]
  rw [scanGrid, main g initState]
  rfl

theorem colCandRows_length (g : Grid) : ∀ (cells : List Cell) (r : ℕ),
    (colCandRows g cells r).length = (cells.filter isPriceCandidate).length := by
  intro cells
  induction cells with
  | nil => intro r; simp [colCandRows]
  | cons v rest ih =>
    intro r
    by_cases hv : isPriceCandidate v
    · simp [colCandRows, hv, List.filter_cons, ih]
    · simp [colCandRows, hv, List.filter_cons, ih]

theorem candidateRows_length (g : Grid) :
    (candidateRows g).length = (candidateCells g).length := by
  rw [candidateRows, candidateCells, List.length_flatMap, List.length_flatMap]
  exact congrArg _ (by simp [colCandRows_length])

theorem candidateColumns_length (g : Grid) :
    (candidateColumns g).length = (candidateCells g).length := by
  rw [candidateColumns, candidateCells, List.length_flatMap, List.length_flatMap]
  exact congrArg _ (by simp)

/-- The five projections of the zipped rows recover the five column lists,
whenever the lists have equal length. -/
theorem zip5_maps : ∀ (qs : List ℚ) (ds rs ps us : List (Option String)),
    ds.length = qs.length → rs.length = qs.length →
    ps.length = qs.length → us.length = qs.length →
    (zip5 ds rs ps us qs).map Observation.date = ds ∧
    (zip5 ds rs ps us qs).map Observation.region = rs ∧
    (zip5 ds rs ps us qs).map Observation.product = ps ∧
    (zip5 ds rs ps us qs).map Observation.unit = us ∧
    (zip5 ds rs ps us qs).map Observation.price = qs := by
  intro qs
  induction qs with
  | nil =>
    intro ds rs ps us hd hr hp hu
    rw [List.length_nil, List.length_eq_zero] at hd hr hp hu
    subst hd; subst hr; subst hp; subst hu
    simp [zip5]
  | cons q qs ih =>
    intro ds rs ps us hd hr hp hu
    rcases ds with _ | ⟨d, ds⟩; · simp at hd
    rcases rs with _ | ⟨r, rs⟩; · simp at hr
    rcases ps with _ | ⟨p, ps⟩; · simp at hp
    rcases us with _ | ⟨u, us⟩; · simp at hu
    simp only [List.length_cons, Nat.succ.injEq] at hd hr hp hu
    obtain ⟨h1, h2, h3, h4, h5⟩ := ih ds rs ps us hd hr hp hu
    simp [zip5, h1, h2, h3, h4, h5]

/-- Projecting the Observation sequence onto each field recovers the
corresponding accumulator list of the scan. -/
theorem extract_maps (g : Grid) :
    (extractObservations g).map Observation.date = (scanGrid g).date_data ∧
    (extractObservations g).map Observation.region = (scanGrid g).region_data ∧
    (extractObservations g).map Observation.product = (scanGrid g).product_data ∧
    (extractObservations g).map Observation.unit = (scanGrid g).unit_data ∧
    (extractObservations g).map Observation.price = (scanGrid g).price_data.map round2 := by
  have hsp := scanGrid_spec g
  have hd : (scanGrid g).date_data.length = ((scanGrid g).price_data.map round2).length := by
    rw [hsp]
    simp [threadDates_length, candidateColumns_length]
  have hr : (scanGrid g).region_data.length = ((scanGrid g).price_data.map round2).length := by
    rw [hsp]; simp [candidateRows_length]
  have hp : (scanGrid g).product_data.length = ((scanGrid g).price_data.map round2).length := by
    rw [hsp]; simp [candidateRows_length]
  have hu : (scanGrid g).unit_data.length = ((scanGrid g).price_data.map round2).length := by
    rw [hsp]; simp [candidateRows_length]
  exact zip5_maps ((scanGrid g).price_data.map round2) _ _ _ _ hd hr hp hu

/-- The number of Observations equals the number of price candidates. -/
theorem extract_length (g : Grid) :
    (extractObservations g).length = (candidateCells g).length := by
  have h := (extract_maps g).2.2.2.2
  have : (extractObservations g).length = ((scanGrid g).price_data.map round2).length := by
    rw [← h, List.length_map]
  rw [this, List.length_map, scanGrid_spec g]
  simp

/-! ### Lemmas about the row inference -/

theorem regionRowScan_cons_str_pos (s : String) (rest : List Cell)
    (hs : valid_regions.contains s = true) :
    regionRowScan (Cell.str s :: rest) =
      some (s, firstText rest,
        match firstText (rest.drop 1) with
        | some u => some u
        | none => firstText rest) := by
  simp only [regionRowScan]
  rw [if_pos hs]

theorem regionRowScan_cons_str_neg (s : String) (rest : List Cell)
    (hs : valid_regions.contains s = false) :
    regionRowScan (Cell.str s :: rest) = regionRowScan rest := by
  simp only [regionRowScan]
  rw [if_neg]
  rw [hs]
  exact Bool.false_ne_true

theorem regionRowScan_eq_none (row : List Cell)
    (h : row.all (fun c => !cellMatchesRegion c) = true) :
    regionRowScan row = none := by
  induction row with
  | nil => rfl
  | cons c rest ih =>
    rw [List.all_cons, Bool.and_eq_true] at h
    obtain ⟨hc, hrest⟩ := h
    cases c with
    | str s =>
      have hs : valid_regions.contains s = false := by
        simpa [cellMatchesRegion] using hc
      rw [regionRowScan_cons_str_neg s rest hs]
      exact ih hrest
    | num q => exact ih hrest
    | boolean b => exact ih hrest
    | empty => exact ih hrest

theorem regionRowScan_at (row : List Cell) : ∀ (i : ℕ) (s : String),
    row.get? i = some (Cell.str s) → valid_regions.contains s = true →
    (row.take i).all (fun c => !cellMatchesRegion c) = true →
    regionRowScan row = some (s, firstText (row.drop (i + 1)),
      match firstText (row.drop (i + 2)) with
      | some u => some u
      | none => firstText (row.drop (i + 1))) := by
  induction row with
  | nil => intro i s h _ _; simp at h
  | cons c rest ih =>
    intro i s hget hs hall
    cases i with
    | zero =>
      rw [List.get?_cons_zero] at hget
      injection hget with hc
      subst hc
      rw [regionRowScan_cons_str_pos s rest hs]
      rfl
    | succ i =>
      rw [List.get?_cons_succ] at hget
      rw [List.take_succ_cons, List.all_cons, Bool.and_eq_true] at hall
      obtain ⟨hc, hrest⟩ := hall
      have hrec := ih i s hget hs hrest
      cases c with
      | str t =>
        have ht : valid_regions.contains t = false := by
          simpa [cellMatchesRegion] using hc
        rw [regionRowScan_cons_str_neg t rest ht]
        exact hrec
      | num q => exact hrec
      | boolean b => exact hrec
      | empty => exact hrec

/-! ### Lemmas about the date threading -/

theorem threadDates_get (cs : List (List Cell)) : ∀ (ly : Option String) (k : ℕ) (c : List Cell),
    cs.get? k = some c →
    (threadDates ly cs).get? k = some (dateOf (lastYearAfter ly (cs.take k)) c) := by
  induction cs with
  | nil => intro ly k c h; simp at h
  | cons c0 cs ih =>
    intro ly k c h
    cases k with
    | zero =>
      rw [List.get?_cons_zero] at h
      injection h with hc
      subst hc
      simp [threadDates, lastYearAfter]
    | succ k =>
      rw [List.get?_cons_succ] at h
      simp only [threadDates, List.get?_cons_succ]
      rw [ih (yrUpdate c0 ly) k c h]
      rfl

theorem lastYearAfter_getLast (cs : List (List Cell)) : ∀ (ly : Option String),
    lastYearAfter ly cs =
      (match (cs.filterMap yearRes).getLast? with
       | some z => some z
       | none => ly) := by
  induction cs with
  | nil => intro ly; simp [lastYearAfter]
  | cons c rest ih =>
    intro ly
    rw [show lastYearAfter ly (c :: rest) = lastYearAfter (yrUpdate c ly) rest from rfl, ih]
    rcases hy : yearRes c with _ | z
    · simp [List.filterMap_cons, hy, yrUpdate]
    · simp only [List.filterMap_cons, hy, yrUpdate]
      cases hl : rest.filterMap yearRes with
      | nil => simp [hl]
      | cons w l2 =>
        rw [List.getLast?_cons_cons]
        have hne : (w :: l2).getLast?.isSome = true := by
          rw [List.getLast?_isSome]
          exact List.cons_ne_nil w l2
        obtain ⟨u, hu⟩ := Option.isSome_iff_exists.mp hne
        simp [hu]

/-! ### First-match lemmas for `List.find?` -/

theorem find_eq_none_of_all {α : Type} (p : α → Bool) :
    ∀ (l : List α), l.all (fun y => !p y) = true → l.find? p = none := by
  intro l
  induction l with
  | nil => intro _; rfl
  | cons a l ih =>
    intro h
    rw [List.all_cons, Bool.and_eq_true] at h
    obtain ⟨ha, hl⟩ := h
    have hpa : p a = false := by simpa using ha
    rw [List.find?_cons_of_neg _ (by simp [hpa]), ih hl]

theorem find_eq_first_match {α : Type} (p : α → Bool) :
    ∀ (l : List α) (i : ℕ) (x : α), l.get? i = some x → p x = true →
      (l.take i).all (fun y => !p y) = true → l.find? p = some x := by
  intro l
  induction l with
  | nil => intro i x h _ _; simp at h
  | cons a l ih =>
    intro i x hget hp hall
    cases i with
    | zero =>
      rw [List.get?_cons_zero] at hget
      injection hget with h
      subst h
      exact List.find?_cons_of_pos _ hp
    | succ i =>
      rw [List.get?_cons_succ] at hget
      rw [List.take_succ_cons, List.all_cons, Bool.and_eq_true] at hall
      obtain ⟨ha, hl⟩ := hall
      have hpa : p a = false := by simpa using ha
      rw [List.find?_cons_of_neg _ (by simp [hpa])]
      exact ih i x hget hp hl

/-- Projecting the Observation at index `k` onto a field reads the
corresponding accumulator list at index `k`. -/
theorem extract_get_k (g : Grid) (k : ℕ) :
    ((extractObservations g).get? k).map Observation.date =
      ((scanGrid g).date_data).get? k ∧
    ((extractObservations g).get? k).map Observation.region =
      ((scanGrid g).region_data).get? k ∧
    ((extractObservations g).get? k).map Observation.product =
      ((scanGrid g).product_data).get? k ∧
    ((extractObservations g).get? k).map Observation.unit =
      ((scanGrid g).unit_data).get? k := by
  obtain ⟨h1, h2, h3, h4, _⟩ := extract_maps g
  refine ⟨?_, ?_, ?_, ?_⟩
  · rw [← h1, List.get?_map]
  · rw [← h2, List.get?_map]
  · rw [← h3, List.get?_map]
  · rw [← h4, List.get?_map]

/-! ### The claims -/

/-- C1: for every grid the Observation sequence has exactly one entry per
cell passing the price test (`isinstance(value, (int, float)) and value >
0`); other cells contribute nothing, and the prices appear in column-major
scan order (`candidateCells` concatenates, column by column, the
qualifying cells of each column in row order). -/
theorem c1_one_observation_per_positive_cell (g : Grid) :
    (extractObservations g).length = (candidateCells g).length ∧
    (extractObservations g).map Observation.price =
      (candidateCells g).map (fun c => round2 (priceValue c)) := by
  refine ⟨extract_length g, ?_⟩
  have h := (extract_maps g).2.2.2.2
  rw [h, scanGrid_spec g]
  simp [List.map_map]

/-- C8: the extractor is deterministic: identical workbook contents and
identical target sheet names give identical Observation sequences.  (In
the model this is immediate because the scan state — the five lists and
`last_year_found` — is created afresh inside each call, lines 137-154.) -/
theorem c8_deterministic (wb1 wb2 : Workbook) (n1 n2 : String)
    (hwb : wb1 = wb2) (hn : n1 = n2) :
    populate_price_column_with_numbers wb1 n1 =
      populate_price_column_with_numbers wb2 n2 := by
  rw [hwb, hn]

theorem c8_witness :
    populate_price_column_with_numbers [(("Nacional" : String), [[Cell.num 2]])] ("Nacional") =
      populate_price_column_with_numbers [(("Nacional" : String), [[Cell.num 2]])] ("Nacional") :=
  c8_deterministic _ _ _ _ rfl rfl

/-- C9: the `isinstance(value, (int, float))` test accepts Python booleans
(`bool` subclasses `int`), and `True > 0` holds, so a cell holding `True`
emits an Observation with price `round(True, 2) = 1`, while `False` (= 0,
not `> 0`) emits nothing. -/
theorem c9_boolean_cells :
    isPriceCandidate (Cell.boolean true) = true ∧
    isPriceCandidate (Cell.boolean false) = false ∧
    extractObservations [[Cell.boolean true]] =
      [⟨none, none, none, none, 1⟩] ∧
    extractObservations [[Cell.boolean false]] = [] := by
  exact ⟨rfl, rfl, by decide, by decide⟩

/-- C10: every price candidate appends exactly one entry to each of the
five accumulator lists — on the region branch and on the fallback branch
alike — so at the end all five lists have length equal to the number of
candidates and every Observation carries all five fields. -/
theorem c10_balanced_accumulators (g : Grid) :
    (∀ (st : ScanState) (colData row : List Cell) (v : ℚ),
      (processCandidate st colData row v).price_data.length = st.price_data.length + 1 ∧
      (processCandidate st colData row v).region_data.length = st.region_data.length + 1 ∧
      (processCandidate st colData row v).product_data.length = st.product_data.length + 1 ∧
      (processCandidate st colData row v).unit_data.length = st.unit_data.length + 1 ∧
      (processCandidate st colData row v).date_data.length = st.date_data.length + 1) ∧
    (scanGrid g).price_data.length = (candidateCells g).length ∧
    (scanGrid g).region_data.length = (candidateCells g).length ∧
    (scanGrid g).product_data.length = (candidateCells g).length ∧
    (scanGrid g).unit_data.length = (candidateCells g).length ∧
    (scanGrid g).date_data.length = (candidateCells g).length ∧
    (extractObservations g).length = (candidateCells g).length := by
  refine ⟨?_, ?_, ?_, ?_, ?_, ?_, extract_length g⟩
  · intro st colData row v
    rw [processCandidate_eq]
    simp
  · rw [scanGrid_spec g]; simp
  · rw [scanGrid_spec g]; simp [candidateRows_length]
  · rw [scanGrid_spec g]; simp [candidateRows_length]
  · rw [scanGrid_spec g]; simp [candidateRows_length]
  · rw [scanGrid_spec g]; simp [threadDates_length, candidateColumns_length]

/-- A three-column grid whose single candidate (the 5 in column 2) has the
row `["GBA", "Leche", 5]`: region at position 0, one text cell at position
1, and no text cell at any position ≥ 2. -/
def c2Grid : Grid := [[Cell.str ("GBA")], [Cell.str ("Leche")], [Cell.num 5]]

/-- C2 counterexample: the claim says Unit is the first text-valued cell
found re-scanning from position i+2 onward, and absent when no qualifying
text cell exists there.  In `c2Grid` the candidate's row has its region at
i = 0 and no text cell at any position ≥ 2 (`firstText` of the row minus
its first two cells is `none`), yet the emitted Unit is `some "Leche"` —
the Product's value, kept because the unit rescan reuses the
`product_found` variable (lines 199-203). -/
theorem c2_counterexample :
    extractObservations c2Grid =
      [⟨none, some ("GBA"), some ("Leche"), some ("Leche"), 5⟩] ∧
    firstText ((getRow c2Grid 0).drop 2) = none := by
  exact ⟨by decide, by decide⟩

/-- C2 (amended): for every price candidate whose row has its first
region-name match at position i, Product is the first text-valued cell at
position > i; Unit is the first text-valued cell at position ≥ i+2 when
one exists (independent of where Product was found), and otherwise Unit
silently keeps Product's value (hence both are absent exactly when no
text cell exists at any position > i). -/
theorem c2_amended_product_unit (g : Grid) (k i : ℕ) (row : List Cell) (s : String)
    (hrow : (candidateRows g).get? k = some row)
    (hi : row.get? i = some (Cell.str s))
    (hs : valid_regions.contains s = true)
    (hfirst : (row.take i).all (fun c => !cellMatchesRegion c) = true) :
    ((extractObservations g).get? k).map Observation.region = some (some s) ∧
    ((extractObservations g).get? k).map Observation.product =
      some (firstText (row.drop (i + 1))) ∧
    ((extractObservations g).get? k).map Observation.unit =
      some (match firstText (row.drop (i + 2)) with
            | some u => some u
            | none => firstText (row.drop (i + 1))) := by
  have hscan := regionRowScan_at row i s hi hs hfirst
  have hrf : rowFields row =
      ⟨some s, firstText (row.drop (i + 1)),
        match firstText (row.drop (i + 2)) with
        | some u => some u
        | none => firstText (row.drop (i + 1))⟩ := by
    rw [rowFields, hscan]
  obtain ⟨_, hreg, hprod, hunit⟩ := extract_get_k g k
  refine ⟨?_, ?_, ?_⟩
  · rw [hreg, scanGrid_spec g]
    simp only [List.get?_map]
    rw [hrow]
    show some ((rowFields row).region) = some (some s)
    rw [hrf]
  · rw [hprod, scanGrid_spec g]
    simp only [List.get?_map]
    rw [hrow]
    show some ((rowFields row).product) = some (firstText (row.drop (i + 1)))
    rw [hrf]
  · rw [hunit, scanGrid_spec g]
    simp only [List.get?_map]
    rw [hrow]
    show some ((rowFields row).unit) = _
    rw [hrf]

theorem c2_amended_witness :
    ((extractObservations c2Grid).get? 0).map Observation.region = some (some ("GBA")) ∧
    ((extractObservations c2Grid).get? 0).map Observation.product = some (some ("Leche")) ∧
    ((extractObservations c2Grid).get? 0).map Observation.unit = some (some ("Leche")) := by
  have h := c2_amended_product_unit c2Grid 0 0 (getRow c2Grid 0) ("GBA")
    (by decide) (by decide) (by decide) (by decide)
  exact ⟨h.1, h.2.1.trans (by decide), h.2.2.trans (by decide)⟩

/-- C5: for every price candidate whose row contains no region-name match
the fallback applies: Region is the row's first cell when it is text,
Product the row's second cell when it is text, and Unit is appended as
`product_found` (line 214) — the third cell is never used for Unit. -/
theorem c5_fallback_unit_is_product (g : Grid) (k : ℕ) (row : List Cell)
    (hrow : (candidateRows g).get? k = some row)
    (hno : row.all (fun c => !cellMatchesRegion c) = true) :
    ((extractObservations g).get? k).map Observation.region =
      some (match row.head? with | some (Cell.str t) => some t | _ => none) ∧
    ((extractObservations g).get? k).map Observation.product =
      some (match row.get? 1 with | some (Cell.str t) => some t | _ => none) ∧
    ((extractObservations g).get? k).map Observation.unit =
      ((extractObservations g).get? k).map Observation.product := by
  have hrf : rowFields row =
      ⟨(match row.head? with | some (Cell.str t) => some t | _ => none),
       (match row.get? 1 with | some (Cell.str t) => some t | _ => none),
       (match row.get? 1 with | some (Cell.str t) => some t | _ => none)⟩ := by
    rw [rowFields, regionRowScan_eq_none row hno]
  obtain ⟨_, hreg, hprod, hunit⟩ := extract_get_k g k
  refine ⟨?_, ?_, ?_⟩
  · rw [hreg, scanGrid_spec g]
    simp only [List.get?_map]
    rw [hrow]
    show some ((rowFields row).region) = _
    rw [hrf]
  · rw [hprod, scanGrid_spec g]
    simp only [List.get?_map]
    rw [hrow]
    show some ((rowFields row).product) = _
    rw [hrf]
  · rw [hunit, hprod, scanGrid_spec g]
    simp only [List.get?_map]
    rw [hrow]
    show some ((rowFields row).unit) = some ((rowFields row).product)
    rw [hrf]

/-- A grid whose single candidate has the row
`["Mendoza", "Leche", "Litro", 3]` — no region-name match, a text third
cell "Litro" that the fallback nevertheless never uses for Unit. -/
def c5Grid : Grid :=
  [[Cell.str ("Mendoza")], [Cell.str ("Leche")], [Cell.str ("Litro")], [Cell.num 3]]

theorem c5_witness :
    ((extractObservations c5Grid).get? 0).map Observation.region = some (some ("Mendoza")) ∧
    ((extractObservations c5Grid).get? 0).map Observation.product = some (some ("Leche")) ∧
    ((extractObservations c5Grid).get? 0).map Observation.unit =
      ((extractObservations c5Grid).get? 0).map Observation.product := by
  have h := c5_fallback_unit_is_product c5Grid 0 (getRow c5Grid 0) (by decide) (by decide)
  exact ⟨h.1.trans (by decide), h.2.1.trans (by decide), h.2.2⟩

/-- C6: region matching (line 189) is the exact, case-sensitive string
test `check_value in valid_regions` against the fixed six names; a string
agreeing with a region name only up to case does not match, and a row all
of whose cells fail the test is handled by the fallback path. -/
theorem c6_region_matching_case_sensitive (row : List Cell) (s : String)
    (hlow : lowerStr s ∈ valid_regions.map lowerStr)
    (hnot : valid_regions.contains s = false)
    (hrow : row.all (fun c => !cellMatchesRegion c) = true) :
    cellMatchesRegion (Cell.str s) = false ∧
    regionRowScan row = none ∧
    rowFields row =
      ⟨(match row.head? with | some (Cell.str t) => some t | _ => none),
       (match row.get? 1 with | some (Cell.str t) => some t | _ => none),
       (match row.get? 1 with | some (Cell.str t) => some t | _ => none)⟩ := by
  refine ⟨hnot, regionRowScan_eq_none row hrow, ?_⟩
  rw [rowFields, regionRowScan_eq_none row hrow]

theorem c6_witness :
    cellMatchesRegion (Cell.str ("gba")) = false ∧
    regionRowScan [Cell.str ("gba"), Cell.str ("Leche")] = none ∧
    rowFields [Cell.str ("gba"), Cell.str ("Leche")] =
      ⟨some ("gba"), some ("Leche"), some ("Leche")⟩ := by
  have h := c6_region_matching_case_sensitive [Cell.str ("gba"), Cell.str ("Leche")]
    ("gba") (by decide) (by decide) (by decide)
  exact ⟨h.1, h.2.1, h.2.2.trans (by decide)⟩

/-- C3: `last_year_found` is threaded across the entire column-major scan
of one call, not reset per column: a candidate whose column scan yields a
month token but no year token dates itself with the most recent year
token observed during the scans of earlier candidates' columns (the last
entry of the year tokens those scans produced); when no year was ever
observed, or the column has no month token, the Date is absent. -/
theorem c3_year_carried_across_columns (g : Grid) (k : ℕ) (colData : List Cell)
    (hcol : (candidateColumns g).get? k = some colData) :
    (∀ m, monthRes colData = some m → yearRes colData = none →
      ((extractObservations g).get? k).map Observation.date =
        some (Option.map (fun y => mkDate y m)
          ((((candidateColumns g).take k).filterMap yearRes).getLast?))) ∧
    (monthRes colData = none →
      ((extractObservations g).get? k).map Observation.date = some none) := by
  have hd := (extract_get_k g k).1
  have hdate : ((extractObservations g).get? k).map Observation.date =
      some (dateOf (lastYearAfter none ((candidateColumns g).take k)) colData) := by
    rw [hd, scanGrid_spec g]
    exact threadDates_get (candidateColumns g) none k colData hcol
  have hly : lastYearAfter none ((candidateColumns g).take k) =
      (((candidateColumns g).take k).filterMap yearRes).getLast? := by
    rw [lastYearAfter_getLast]
    rcases (((candidateColumns g).take k).filterMap yearRes).getLast? with _ | z
    · rfl
    · rfl
  constructor
  · intro m hm hy
    rw [hdate, hly, dateOf, hm]
    simp only [yrUpdate, hy]
    rcases (((candidateColumns g).take k).filterMap yearRes).getLast? with _ | z
    · rfl
    · rfl
  · intro hm
    rw [hdate, dateOf, hm]

/-- The spec's year-persistence grid: column 0 carries "Año 2020" and a
candidate, column 1 only a month label and a candidate. -/
def c3Grid : Grid :=
  [[Cell.str ("Año 2020"), Cell.str ("Enero"), Cell.num 10],
   [Cell.str ("Febrero"), Cell.num 5]]

theorem c3_witness :
    ((extractObservations c3Grid).get? 1).map Observation.date =
      some (some ("2020-02-01")) := by
  have h := (c3_year_carried_across_columns c3Grid 1 [Cell.str ("Febrero"), Cell.num 5]
    (by decide)).1 ("02") (by decide) (by decide)
  exact h.trans (by decide)

/-- C7: sheet selection compares lowercased names, returns the first
case-insensitive match of the target, and otherwise falls back to the
first sheet in file order (a policy, not an error). -/
theorem c7_sheet_selection (sheets : List String) (target : String) (hne : sheets ≠ []) :
    (∀ (i : ℕ) (s : String), sheets.get? i = some s → lowerStr s = lowerStr target →
      (sheets.take i).all (fun t => !(lowerStr t == lowerStr target)) = true →
      find_sheet_case_insensitive sheets target = some s) ∧
    (sheets.all (fun t => !(lowerStr t == lowerStr target)) = true →
      find_sheet_case_insensitive sheets target = sheets.head?) ∧
    (∃ s, find_sheet_case_insensitive sheets target = some s) := by
  refine ⟨?_, ?_, ?_⟩
  · intro i s hget heq htake
    rw [find_sheet_case_insensitive,
      find_eq_first_match (fun t => lowerStr t == lowerStr target) sheets i s hget
        (by show (lowerStr s == lowerStr target) = true; rw [heq]; exact beq_self_eq_true _)
        htake]
  · intro hall
    rw [find_sheet_case_insensitive,
      find_eq_none_of_all (fun t => lowerStr t == lowerStr target) sheets hall]
  · rw [find_sheet_case_insensitive]
    cases hf : sheets.find? (fun t => lowerStr t == lowerStr target) with
    | some s => exact ⟨s, rfl⟩
    | none =>
      cases sheets with
      | nil => exact absurd rfl hne
      | cons a l => exact ⟨a, rfl⟩

theorem c7_witness :
    find_sheet_case_insensitive ["Resumen", "Nacional"] ("nacional") =
      some ("Nacional") :=
  (c7_sheet_selection ["Resumen", "Nacional"] ("nacional") (by decide)).1
    1 ("Nacional") (by decide) (by decide) (by decide)

/-- The page of the C4 counterexample: two `.xls` anchors with distinct
hrefs and texts. -/
def c4Page : List Anchor :=
  [⟨"http://x/a.xls", "uno"⟩, ⟨"http://x/b.xls", "dos"⟩]

/-- C4 counterexample: the claim says that whenever `reference_text` is
given, the first candidate whose text contains it (case-insensitively) is
returned.  The empty string is contained in every text, so for
`reference_text = ""` the claim demands the FIRST candidate's href
("http://x/a.xls"); but `if reference_text:` is a truthiness test that
treats `""` like an absent argument, and the code returns the LAST
candidate's href. -/
theorem c4_counterexample :
    strContains (lowerStr ("uno")) (lowerStr ("")) = true ∧
    find_and_return_xls_link ("http://h") c4Page (some ("")) =
      some ("http://x/b.xls") ∧
    ("http://x/b.xls" : String) ≠ "http://x/a.xls" := by
  exact ⟨by decide, by decide, by decide⟩

/-- C4 (amended): on the `.xls`-anchor candidates of the page, in document
order: no candidate gives `none`; an absent — or empty, by the truthiness
test — `reference_text` gives the last candidate's href; a non-empty
`reference_text` gives the first candidate whose visible text contains it
case-insensitively, or the last candidate's href when none matches.  The
chosen href is returned normalized by `absolutize` (the identity on
absolute `http...` links). -/
theorem c4_amended_link_selection (page_url : String) (anchors : List Anchor) :
    (anchors.filter (fun a => strEndsWith a.href (".xls")) = [] →
      ∀ ref, find_and_return_xls_link page_url anchors ref = none) ∧
    (∀ (a : Anchor) (rest : List Anchor),
      anchors.filter (fun a => strEndsWith a.href (".xls")) = a :: rest →
      find_and_return_xls_link page_url anchors none =
        some (absolutize page_url (lastHrefOf a rest)) ∧
      find_and_return_xls_link page_url anchors (some ("")) =
        some (absolutize page_url (lastHrefOf a rest)) ∧
      (∀ r : String, r ≠ "" →
        ((a :: rest).all (fun l => !(strContains (lowerStr l.text) (lowerStr r))) = true →
          find_and_return_xls_link page_url anchors (some r) =
            some (absolutize page_url (lastHrefOf a rest))) ∧
        (∀ (j : ℕ) (l : Anchor), (a :: rest).get? j = some l →
          strContains (lowerStr l.text) (lowerStr r) = true →
          ((a :: rest).take j).all
            (fun x => !(strContains (lowerStr x.text) (lowerStr r))) = true →
          find_and_return_xls_link page_url anchors (some r) =
            some (absolutize page_url l.href)))) := by
  constructor
  · intro hfil ref
    rw [find_and_return_xls_link, hfil]
  · intro a rest hfil
    refine ⟨?_, ?_, ?_⟩
    · rw [find_and_return_xls_link, hfil]
    · rw [find_and_return_xls_link, hfil]
      rfl
    · intro r hr
      constructor
      · intro hall
        rw [find_and_return_xls_link, hfil]
        show (if r = "" then some (absolutize page_url (lastHrefOf a rest))
          else
            match List.find? (fun l => strContains (lowerStr l.text) (lowerStr r))
                (a :: rest) with
            | some l => some (absolutize page_url l.href)
            | none => some (absolutize page_url (lastHrefOf a rest))) =
          some (absolutize page_url (lastHrefOf a rest))
        rw [if_neg hr,
          find_eq_none_of_all (fun l => strContains (lowerStr l.text) (lowerStr r))
            (a :: rest) hall]
      · intro j l hget hcont htake
        rw [find_and_return_xls_link, hfil]
        show (if r = "" then some (absolutize page_url (lastHrefOf a rest))
          else
            match List.find? (fun l => strContains (lowerStr l.text) (lowerStr r))
                (a :: rest) with
            | some l => some (absolutize page_url l.href)
            | none => some (absolutize page_url (lastHrefOf a rest))) =
          some (absolutize page_url l.href)
        rw [if_neg hr,
          find_eq_first_match (fun l => strContains (lowerStr l.text) (lowerStr r))
            (a :: rest) j l hget hcont htake]

theorem c4_witness :
    find_and_return_xls_link ("http://h") c4Page (some ("uno")) =
      some ("http://x/a.xls") := by
  have h := (((c4_amended_link_selection ("http://h") c4Page).2
      ⟨"http://x/a.xls", "uno"⟩ [⟨"http://x/b.xls", "dos"⟩] (by decide)).2.2
      ("uno") (by decide)).2 0 ⟨"http://x/a.xls", "uno"⟩ (by decide) (by decide) (by decide)
  exact h.trans (by decide)

end CPI
